import Mathlib

/-!
Verification development for `src/parsers/parser_cnis.py` of the
`api_cnis` repository: a single-pass line parser that extracts
employment records ("vínculos") from the text of a Brazilian CNIS
statement.

The Python source works with `re` patterns over unicode strings.  The
embedding models a string as its `List Char` and implements each of the
source's regular expressions as an explicit scanner with Python's
leftmost-match and greedy-with-backtracking semantics for the exact
patterns the source uses.  Conventions of the model:

* Word characters (Python `\w`): ASCII alphanumerics, the underscore,
  and every code point at or above U+0080 — on the Latin letters that
  occur in CNIS text this agrees with Python's unicode `\w`.
* Whitespace (Python `\s`, `str.strip`): space, tab, CR, LF.
* `str.lower` / `str.upper` are modelled on ASCII letters; the
  lowercase search literals of the source ("emitido", "página", …) are
  unaffected.
* Python `float` is modelled as an exact rational (`ℚ`).  The only call
  site feeds it strings made of an optional sign, digits and at most
  the dots produced by `","→"."`; on that alphabet the model is the
  exact value CPython parses (specials, exponents and double rounding
  never arise there).
-/

namespace ApiCnis

/-! ### Character classes and Python string utilities -/

def isWordChar (c : Char) : Bool :=
  c.isAlphanum || c == '_' || decide (c.val ≥ 0x80)

def isSpaceChar (c : Char) : Bool :=
  c == ' ' || c == '\t' || c == '\r' || c == '\n'

def wordOpt (c : Option Char) : Bool :=
  c.elim false isWordChar

def noWordOpt (c : Option Char) : Bool :=
  !(wordOpt c)

def lowerAscii (c : Char) : Char := c.toLower

def upperAscii (c : Char) : Char := c.toUpper

/-- Python `str.strip()` (on the whitespace the model covers). -/
def stripChars (cs : List Char) : List Char :=
  ((cs.dropWhile isSpaceChar).reverse.dropWhile isSpaceChar).reverse

def pyStrip (s : String) : String := String.mk (stripChars s.data)

/-- Python `str.rstrip("\n")`. -/
def pyRstripNl (s : String) : String :=
  String.mk ((s.data.reverse.dropWhile (fun c => c == '\n')).reverse)

/-- Python `str.lower()` on ASCII letters. -/
def pyLower (s : String) : String := String.mk (s.data.map lowerAscii)

/-- Python `str.upper()` on ASCII letters. -/
def pyUpper (s : String) : String := String.mk (s.data.map upperAscii)

/-- Python `texto.split("\n")`: split at every newline, keeping empty
pieces (so `""` yields `[""]`). -/
def splitNlAux : List Char → List Char → List String
  | acc, [] => [String.mk acc.reverse]
  | acc, c :: rest =>
    if c == '\n' then String.mk acc.reverse :: splitNlAux [] rest
    else splitNlAux (c :: acc) rest

def pySplitNl (s : String) : List String := splitNlAux [] s.data

/-- Python `txt.replace(".", "")`: with a one-character pattern and an
empty replacement this deletes every dot. -/
def pyRemoveDots (s : String) : String :=
  String.mk (s.data.filter (fun c => !(c == '.')))

/-- Python `txt.replace(",", ".")`: a one-character pattern and
replacement, so a plain character map. -/
def pyCommaToDot (s : String) : String :=
  String.mk (s.data.map (fun c => if c == ',' then '.' else c))

/-- Contiguous-sublist test on characters: Python's `needle in hay`. -/
def listInfix (needle : List Char) : List Char → Bool
  | [] => needle.isEmpty
  | c :: rest => needle.isPrefixOf (c :: rest) || listInfix needle rest

def pyIn (needle hay : String) : Bool := listInfix needle.data hay.data

/-- Python slice `cs[a:b]` with clamping (negative indices resolve from
the end, as in Python). -/
def pySliceNorm (len : Nat) (i : Int) : Nat :=
  if i < 0 then ((len : Int) + i).toNat else min i.toNat len

def pySlice (cs : List Char) (a b : Int) : List Char :=
  (cs.take (pySliceNorm cs.length b)).drop (pySliceNorm cs.length a)

/-- Python slice `cs[a:]`. -/
def pyDropI (cs : List Char) (a : Int) : List Char :=
  cs.drop (pySliceNorm cs.length a)

/-- Python slice `cs[:b]`. -/
def pyTakeI (cs : List Char) (b : Int) : List Char :=
  cs.take (pySliceNorm cs.length b)

/-- Split on whitespace runs, dropping empty pieces: the source's
`[t for t in re.split(r"\s+", mid) if t.strip()]`. -/
def wordsAux : List Char → List Char → List String
  | acc, [] => if acc.isEmpty then [] else [String.mk acc.reverse]
  | acc, c :: rest =>
    if isSpaceChar c then
      if acc.isEmpty then wordsAux [] rest
      else String.mk acc.reverse :: wordsAux [] rest
    else wordsAux (c :: acc) rest

def splitWs (s : String) : List String := wordsAux [] s.data

/-! ### The source's regular expressions as explicit matchers

Each `match…At prev cs` decides whether the pattern matches at the
front of `cs`, with `prev` the character just before that position
(for `\b`).  It returns `(consumed length, payload)`. -/

/-- Shape of `\d{2}/\d{2}/\d{4}` (RE_DATA's body). -/
def dataShape : List Char → Bool
  | [a, b, s1, c, d, s2, e, f, g, h] =>
    a.isDigit && b.isDigit && s1 == '/' && c.isDigit && d.isDigit &&
    s2 == '/' && e.isDigit && f.isDigit && g.isDigit && h.isDigit
  | _ => false

/-- `RE_DATA = \b\d{2}/\d{2}/\d{4}\b` at a position. -/
def matchDataAt (prev : Option Char) (cs : List Char) : Option (Nat × String) :=
  if dataShape (cs.take 10) && noWordOpt prev && noWordOpt (cs.drop 10).head? then
    some (10, String.mk (cs.take 10))
  else none

/-- Shape of `\d{2}/\d{4}` (RE_MES_ANO's body). -/
def mesAnoShape : List Char → Bool
  | [a, b, s1, c, d, e, f] =>
    a.isDigit && b.isDigit && s1 == '/' && c.isDigit && d.isDigit &&
    e.isDigit && f.isDigit
  | _ => false

/-- `RE_MES_ANO = \b\d{2}/\d{4}\b` at a position. -/
def matchMesAnoAt (prev : Option Char) (cs : List Char) : Option (Nat × String) :=
  if mesAnoShape (cs.take 7) && noWordOpt prev && noWordOpt (cs.drop 7).head? then
    some (7, String.mk (cs.take 7))
  else none

/-- `RE_EMPREGADO_TOKEN = \bEmpregado\b` with IGNORECASE, at a position. -/
def matchEmpregadoAt (prev : Option Char) (cs : List Char) : Option (Nat × Unit) :=
  if ((cs.take 9).map lowerAscii) == "empregado".data && noWordOpt prev &&
      noWordOpt (cs.drop 9).head? then
    some (9, ())
  else none

/-- Shape of `\d{2}\.\d{3}\.\d{3}/\d{4}-\d{2}` (RE_CNPJ's body). -/
def cnpjShape : List Char → Bool
  | [a, b, p1, c, d, e, p2, f, g, h, sl, i, j, k, l, hy, m, n] =>
    a.isDigit && b.isDigit && p1 == '.' && c.isDigit && d.isDigit && e.isDigit &&
    p2 == '.' && f.isDigit && g.isDigit && h.isDigit && sl == '/' &&
    i.isDigit && j.isDigit && k.isDigit && l.isDigit && hy == '-' &&
    m.isDigit && n.isDigit
  | _ => false

def matchCnpjAt (prev : Option Char) (cs : List Char) : Option (Nat × String) :=
  if cnpjShape (cs.take 18) && noWordOpt prev && noWordOpt (cs.drop 18).head? then
    some (18, String.mk (cs.take 18))
  else none

/-- Shape of `\d\.\d{3}\.\d{3}\.\d{3}-\d` (RE_NIT_VAL's body). -/
def nitValShape : List Char → Bool
  | [a, p1, b, c, d, p2, e, f, g, p3, h, i, j, hy, k] =>
    a.isDigit && p1 == '.' && b.isDigit && c.isDigit && d.isDigit &&
    p2 == '.' && e.isDigit && f.isDigit && g.isDigit && p3 == '.' &&
    h.isDigit && i.isDigit && j.isDigit && hy == '-' && k.isDigit
  | _ => false

def matchNitValAt (prev : Option Char) (cs : List Char) : Option (Nat × String) :=
  if nitValShape (cs.take 15) && noWordOpt prev && noWordOpt (cs.drop 15).head? then
    some (15, String.mk (cs.take 15))
  else none

/-- Shape of `\d{2}\.\d{3}\.\d{3}\.\d{2}-\d` (RE_CODIGO_EMP_ALT's first
alternative, a CEI-like code). -/
def ceiShape : List Char → Bool
  | [a, b, p1, c, d, e, p2, f, g, h, p3, i, j, hy, k] =>
    a.isDigit && b.isDigit && p1 == '.' && c.isDigit && d.isDigit && e.isDigit &&
    p2 == '.' && f.isDigit && g.isDigit && h.isDigit && p3 == '.' &&
    i.isDigit && j.isDigit && hy == '-' && k.isDigit
  | _ => false

def matchCeiAt (prev : Option Char) (cs : List Char) : Option (Nat × String) :=
  if ceiShape (cs.take 14) && noWordOpt prev && noWordOpt (cs.drop 14).head? then
    some (14, String.mk (cs.take 14))
  else none

/-- `\b\d{11,14}\b` (RE_CODIGO_EMP_ALT's second alternative).  With the
trailing `\b`, a maximal digit run matches exactly when its length lies
in `[11,14]` and the character after the run is not a word character. -/
def matchLongDigitsAt (prev : Option Char) (cs : List Char) : Option (Nat × String) :=
  let run := cs.takeWhile Char.isDigit
  let n := run.length
  if 11 ≤ n && n ≤ 14 && noWordOpt prev && noWordOpt (cs.drop n).head? then
    some (n, String.mk run)
  else none

/-- `RE_CODIGO_EMP_ALT`: the alternation tries the CEI shape first. -/
def matchCodigoAltAt (prev : Option Char) (cs : List Char) : Option (Nat × String) :=
  (matchCeiAt prev cs).orElse (fun _ => matchLongDigitsAt prev cs)

/-- `RE_IND_TOKENS = \b[A-Z][A-Z0-9_]{1,15}\b` at a position.  The
maximal class run after the leading capital must have length in
`[1,15]` and be followed by a non-word character (else every
backtracking length also fails the trailing `\b`). -/
def indClassChar (c : Char) : Bool :=
  ('A' ≤ c && c ≤ 'Z') || c.isDigit || c == '_'

def matchIndTokAt (prev : Option Char) (cs : List Char) : Option (Nat × String) :=
  match cs with
  | [] => none
  | c0 :: rest =>
    let run := rest.takeWhile indClassChar
    let n := run.length
    if ('A' ≤ c0 && c0 ≤ 'Z') && noWordOpt prev && 1 ≤ n && n ≤ 15 &&
        noWordOpt (rest.drop n).head? then
      some (1 + n, String.mk (c0 :: run))
    else none

/-- Character class `[\d\.\,]` of RE_REMUN's amount group. -/
def amountClassChar (c : Char) : Bool :=
  c.isDigit || c == '.' || c == ','

/-- The trailing `\b` of RE_REMUN backtracks the greedy amount run: the
longest prefix of the maximal run whose last character's wordness
differs from the following character's wordness wins. -/
def boundaryOkAt (run : List Char) (after : Option Char) (k : Nat) : Bool :=
  isWordChar (run.getD (k - 1) ' ') !=
    wordOpt (if k < run.length then run.get? k else after)

def bestAmountLen (run : List Char) (after : Option Char) : Option Nat :=
  (List.range run.length).reverse.findSome? fun i =>
    if boundaryOkAt run after (i + 1) then some (i + 1) else none

/-- `RE_REMUN = \b(\d{2}/\d{4})\s+(-?[\d\.\,]+)\b` at a position.
Payload: (competency, amount token). -/
def matchRemunAt (prev : Option Char) (cs : List Char) :
    Option (Nat × (String × String)) :=
  if mesAnoShape (cs.take 7) && noWordOpt prev then
    let comp := String.mk (cs.take 7)
    let rest := cs.drop 7
    let wsn := (rest.takeWhile isSpaceChar).length
    if wsn == 0 then none
    else
      let rest2 := rest.drop wsn
      let neg := rest2.head? == some '-'
      let rest3 := if neg then rest2.drop 1 else rest2
      let run := rest3.takeWhile amountClassChar
      match bestAmountLen run (rest3.drop run.length).head? with
      | none => none
      | some k =>
        let tok := (if neg then "-" else "") ++ String.mk (run.take k)
        some (7 + wsn + (if neg then 1 else 0) + k, (comp, tok))
  else none

/-- Character class `[\d\.\-]` of the CPF/NIT labelled-field groups. -/
def idClassChar (c : Char) : Bool :=
  c.isDigit || c == '.' || c == '-'

/-- `\bLABEL\b\s*[:\-]?\s*([\d\.\-]+)` with IGNORECASE (RE_CPF and
RE_NIT_ID), at a position.  When the greedy separator `-` leaves the
value group empty, the engine backtracks and the `-` itself becomes
the (sole) value character. -/
def matchLabeledAt (label : List Char) (prev : Option Char) (cs : List Char) :
    Option (Nat × String) :=
  let n := label.length
  if ((cs.take n).map lowerAscii) == label && noWordOpt prev &&
      noWordOpt (cs.drop n).head? then
    let rest := cs.drop n
    let w1 := (rest.takeWhile isSpaceChar).length
    let r1 := rest.drop w1
    match r1 with
    | [] => none
    | c :: r2 =>
      if c == ':' || c == '-' then
        let w2 := (r2.takeWhile isSpaceChar).length
        let m := (r2.drop w2).takeWhile idClassChar
        if m.length ≥ 1 then some (n + w1 + 1 + w2 + m.length, String.mk m)
        else if c == '-' then some (n + w1 + 1, "-")
        else none
      else
        let m := r1.takeWhile idClassChar
        if m.length ≥ 1 then some (n + w1 + m.length, String.mk m)
        else none
  else none

/-! ### The scan driver: `re` search / finditer semantics -/

/-- All non-overlapping matches of `f` from left to right, as
`(start, consumed length, payload)`.  `fuel ≥ cs.length` suffices; the
matchers above never match the empty suffix, and consumed lengths are
at least 1 (`max 1`) so a step always advances. -/
def scanAllFuel {β : Type} (f : Option Char → List Char → Option (Nat × β)) :
    Nat → Option Char → List Char → Nat → List (Nat × Nat × β)
  | 0, _, _, _ => []
  | _ + 1, _, [], _ => []
  | fuel + 1, prev, c :: rest, pos =>
    match f prev (c :: rest) with
    | some (len, b) =>
      let l := max 1 len
      (pos, len, b) ::
        scanAllFuel f fuel (some (((c :: rest).take l).getLastD c))
          ((c :: rest).drop l) (pos + l)
    | none => scanAllFuel f fuel (some c) rest (pos + 1)

def scanAll {β : Type} (f : Option Char → List Char → Option (Nat × β))
    (s : String) : List (Nat × Nat × β) :=
  scanAllFuel f s.data.length none s.data 0

/-- `pattern.search(s)`: the leftmost match. -/
def searchFirst {β : Type} (f : Option Char → List Char → Option (Nat × β))
    (s : String) : Option (Nat × Nat × β) :=
  (scanAll f s).head?

/-- `RE_SEQ_INICIO = ^\s*(\d{1,4})\s+` searched without MULTILINE: only
position 0 can host the `^`.  Returns `(group 1, match end)`; the match
end is the end of the greedy whitespace run after the digits.  A
leading digit run longer than 4 can never match (every backtracked
length is still followed by a digit). -/
def searchSeqInicio (s : String) : Option (String × Nat) :=
  let cs := s.data
  let w := cs.takeWhile isSpaceChar
  let afterW := cs.dropWhile isSpaceChar
  let ds := afterW.takeWhile Char.isDigit
  let afterD := afterW.dropWhile Char.isDigit
  let n := ds.length
  if 1 ≤ n && n ≤ 4 then
    let wsA := (afterD.takeWhile isSpaceChar).length
    if 1 ≤ wsA then some (String.mk ds, w.length + n + wsA) else none
  else none

def searchData (s : String) : Option (Nat × Nat × String) :=
  searchFirst matchDataAt s

def searchEmpregado (s : String) : Option (Nat × Nat × Unit) :=
  searchFirst matchEmpregadoAt s

def searchRemun (s : String) : Option (String × String) :=
  (searchFirst matchRemunAt s).map (fun r => r.2.2)

def searchCpfId (s : String) : Option String :=
  (searchFirst (matchLabeledAt "cpf".data) s).map (fun r => r.2.2)

def searchNitId (s : String) : Option String :=
  (searchFirst (matchLabeledAt "nit".data) s).map (fun r => r.2.2)

def findAllMesAno (s : String) : List String :=
  (scanAll matchMesAnoAt s).map (fun r => r.2.2)

def findAllIndTokens (s : String) : List String :=
  (scanAll matchIndTokAt s).map (fun r => r.2.2)

/-! ### Numbers -/

def digitVal (c : Char) : Nat := c.toNat - 48

def natOfDigits (cs : List Char) : Nat :=
  cs.foldl (fun acc c => 10 * acc + digitVal c) 0

/-- CPython `int()` restricted to the digit strings `RE_SEQ_INICIO`'s
group 1 can produce (1–4 ASCII digits); anything else is a
`ValueError`, modelled as `none`. -/
def py_int (s : String) : Option Nat :=
  if s.data ≠ [] ∧ s.data.all Char.isDigit then some (natOfDigits s.data) else none

/-- CPython `float()` as an exact rational, on strings of an optional
sign followed by digits with at most one dot — the only strings
`_to_float_ptbr` can feed it.  Anything else is `none` (a
`ValueError`). -/
def tenPow : Nat → Nat
  | 0 => 1
  | n + 1 => 10 * tenPow n

def pyFloatOfString (s : String) : Option ℚ :=
  let cs := s.data
  let body := if cs.head? == some '-' || cs.head? == some '+' then cs.drop 1 else cs
  let intPart := body.takeWhile Char.isDigit
  let rest := body.drop intPart.length
  let fracPart :=
    match rest with
    | '.' :: r => if r.all Char.isDigit then some r else none
    | [] => some []
    | _ => none
  match fracPart with
  | none => none
  | some frac =>
    if intPart.length + frac.length == 0 then none
    else
      let n : Int := natOfDigits (intPart ++ frac)
      some (mkRat (if cs.head? == some '-' then -n else n) (tenPow frac.length))

/-- `_to_float_ptbr`: drop the thousands dots, turn the decimal comma
into a dot, and parse; a failure is caught and becomes `None`. -/
def to_float_ptbr (txt : String) : Option ℚ :=
  pyFloatOfString (pyCommaToDot (pyRemoveDots txt))

/-! ### Data model -/

structure Remuneracao where
  competencia : String
  valor : Option ℚ
deriving DecidableEq

structure Vinculo where
  sequencial : Option Nat
  nit_vinculo : Option String
  nome_empresa : Option String
  codigo_emp : Option String
  origem_vinculo : Option String
  tipo_vinculo : String
  data_inicio : Option String
  data_fim : Option String
  ultima_remuneracao : Option String
  matricula : Option String
  indicadores : List String
  remuneracoes : List Remuneracao
deriving DecidableEq

/-- The Python result dict: `identificacao` is a string-keyed dict
(insertion order preserved), `vinculos` a list. -/
structure Resultado where
  identificacao : List (String × String)
  vinculos : List Vinculo
deriving DecidableEq

/-! ### The extraction helpers of the source -/

/-- `_is_likely_vinculo_line`. -/
def is_likely_vinculo_line (raw_line : String) : Bool :=
  if (searchSeqInicio raw_line).isNone then false
  else if (searchEmpregado raw_line).isNone then false
  else if (searchData raw_line).isNone then false
  else if pyIn "Indicador" raw_line && pyIn "Descrição" raw_line then false
  else true

/-- `_extract_datas_from_line`: (data_inicio, data_fim,
idx_inicio_data1, idx_fim_ultima_data). -/
def extract_datas_from_line (line : String) :
    Option String × Option String × Int × Int :=
  let datas := scanAll matchDataAt line
  match datas with
  | [] => (none, none, -1, -1)
  | (st, _, tok) :: tail =>
    let dataFim := tail.head?.map (fun r => r.2.2)
    let lastM := (datas.getLast?).getD (st, 10, tok)
    (some tok, dataFim, (st : Int), ((lastM.1 + lastM.2.1 : Nat) : Int))

/-- Remove a matched span `[st, en)` and re-strip, as the source's
`(pre[:m.start()] + " " + pre[m.end():]).strip()`. -/
def removeSpan (s : String) (st en : Nat) : String :=
  pyStrip (String.mk (s.data.take st ++ ' ' :: s.data.drop en))

/-- `_extract_nit_and_codigo_and_empresa`: (sequencial, nit_vinculo,
codigo_emp, nome_empresa). -/
def extract_nit_and_codigo_and_empresa (line : String) (idx_inicio_data : Int) :
    Option Nat × Option String × Option String × Option String :=
  let raw := pyStrip line
  let mseq := searchSeqInicio raw
  let sequencial := mseq.map (fun p => natOfDigits p.1.data)
  let pre0 := pyStrip (String.mk (pyTakeI raw.data idx_inicio_data))
  let pre1 := match mseq with
    | some p => pyStrip (String.mk (pre0.data.drop p.2))
    | none => pre0
  let nitM := searchFirst matchNitValAt pre1
  let nit := nitM.map (fun r => r.2.2)
  let pre2 := match nitM with
    | some (st, len, _) => removeSpan pre1 st (st + len)
    | none => pre1
  let cnpjM := searchFirst matchCnpjAt pre2
  let codPre := match cnpjM with
    | some (st, len, tok) => (some tok, removeSpan pre2 st (st + len))
    | none =>
      match searchFirst matchCodigoAltAt pre2 with
      | some (st, len, tok) => (some tok, removeSpan pre2 st (st + len))
      | none => (none, pre2)
  let nome := if pyStrip codPre.2 ≠ "" then some (pyStrip codPre.2) else none
  (sequencial, nit, codPre.1, nome)

/-- Class `[A-Za-z0-9\-_/]` of the matrícula probe. -/
def matriculaClassChar (c : Char) : Bool :=
  c.isAlpha || c.isDigit || c == '-' || c == '_' || c == '/'

def fullmatchMatricula (t : String) : Bool :=
  t.data.all matriculaClassChar && 4 ≤ t.data.length && t.data.length ≤ 40

/-- `RE_MES_ANO.fullmatch` (the anchoring `\b`s always hold on a full
match of the shape). -/
def fullmatchMesAno (t : String) : Bool := mesAnoShape t.data

/-- Order-preserving de-duplication (the source's seen-set loop). -/
def dedupKeepFirst : List String → List String → List String
  | _, [] => []
  | seen, x :: rest =>
    if seen.contains x then dedupKeepFirst seen rest
    else x :: dedupKeepFirst (x :: seen) rest

/-- `_extract_matricula_and_indicadores`: (matricula, indicadores,
ultima_remun_linha). -/
def extract_matricula_and_indicadores (line : String) (idx_fim_ultima_data : Int) :
    Option String × List String × Option String :=
  match searchEmpregado line with
  | none => (none, [], none)
  | some (st, len, _) =>
    let mid := pyStrip (String.mk (pySlice line.data idx_fim_ultima_data (st : Int)))
    let meses := findAllMesAno mid
    let ultima := meses.getLast?
    let tokens := splitWs mid
    let matricula := tokens.findSome? fun t =>
      if fullmatchMesAno t then none
      else if fullmatchMatricula t then some t else none
    let after := String.mk (line.data.drop (st + len))
    let inds := (findAllIndTokens after).filter fun tok =>
      !(pyUpper tok == "CPF" || pyUpper tok == "NIT")
    (matricula, dedupKeepFirst [] inds, ultima)

/-- `_extract_ultima_remun_from_block`. -/
def extract_ultima_remun_from_block (block_lines : List String) : Option String :=
  ((block_lines.map findAllMesAno).flatten).getLast?

/-- `_is_noise_line_for_remun`. -/
def is_noise_line_for_remun (line : String) : Bool :=
  let low := pyLower line
  if pyIn "emitido" low || pyIn "página" low || pyIn "pagina" low then true
  else if pyIn "indicador" line && pyIn "descrição" low then true
  else false

/-! ### The main parser -/

/-- `parse_cnis`'s loop state: the open record, its block buffer, and
the emitted records. -/
structure ParseState where
  vinculo_atual : Option Vinculo
  bloco_linhas : List String
  vinculos : List Vinculo
deriving DecidableEq

/-- Closing a record: back-fill `ultima_remuneracao` from the block
when it is still unset. -/
def closeVinculo (v : Vinculo) (bloco : List String) : Vinculo :=
  if v.ultima_remuneracao.isNone then
    { v with ultima_remuneracao := extract_ultima_remun_from_block bloco }
  else v

/-- The record built from a trigger line. -/
def buildVinculo (ln : String) : Vinculo :=
  let datas := extract_datas_from_line ln
  let quad := extract_nit_and_codigo_and_empresa ln datas.2.2.1
  let trip := extract_matricula_and_indicadores ln datas.2.2.2
  { sequencial := quad.1
    nit_vinculo := quad.2.1
    nome_empresa := quad.2.2.2
    codigo_emp := quad.2.2.1
    origem_vinculo := none
    tipo_vinculo := "EMPREGADO"
    data_inicio := datas.1
    data_fim := datas.2.1
    ultima_remuneracao := trip.2.2
    matricula := trip.1
    indicadores := trip.2.1
    remuneracoes := [] }

/-- One iteration of the `for linha in linhas` loop. -/
def stepLine (st : ParseState) (linha : String) : ParseState :=
  let ln := pyStrip (pyRstripNl linha)
  if ln == "" then st
  else if is_likely_vinculo_line ln then
    let vs := match st.vinculo_atual with
      | some v => st.vinculos ++ [closeVinculo v st.bloco_linhas]
      | none => st.vinculos
    { vinculo_atual := some (buildVinculo ln), bloco_linhas := [], vinculos := vs }
  else
    match st.vinculo_atual with
    | some v =>
      if v.tipo_vinculo == "EMPREGADO" then
        let bloco := st.bloco_linhas ++ [ln]
        if is_noise_line_for_remun ln then
          { st with bloco_linhas := bloco }
        else
          match searchRemun ln with
          | some (comp, tok) =>
            { vinculo_atual := some { v with
                remuneracoes := v.remuneracoes ++ [⟨comp, to_float_ptbr tok⟩] }
              bloco_linhas := bloco
              vinculos := st.vinculos }
          | none => { st with bloco_linhas := bloco }
      else st
    | none => st

/-- The identification block of `parse_cnis` (first CPF match, then
first NIT match; a missing label leaves the key out). -/
def identificacaoOf (texto : String) : List (String × String) :=
  (match searchCpfId texto with
    | some g => [("cpf", pyStrip g)]
    | none => []) ++
  (match searchNitId texto with
    | some g => [("nit", pyStrip g)]
    | none => [])

/-- `parse_cnis`. -/
def parse_cnis (texto : String) : Resultado :=
  let identificacao := identificacaoOf texto
  let linhas := pySplitNl texto
  let final := linhas.foldl stepLine ⟨none, [], []⟩
  let vincs := match final.vinculo_atual with
    | some v => final.vinculos ++ [closeVinculo v final.bloco_linhas]
    | none => final.vinculos
  ⟨identificacao, vincs⟩

/-! ### Helper notions for the statements -/

/-- The open record's remuneration list (empty when no record is open). -/
def openRemun (st : ParseState) : List Remuneracao :=
  match st.vinculo_atual with
  | some v => v.remuneracoes
  | none => []

end ApiCnis

namespace ApiCnis

/-! ## Claims -/

def vinculoC4 : Vinculo := buildVinculo "1 ACME 01/01/2019 Empregado"

/-- Every record the loop ever holds is an EMPREGADO record with a
start date. -/
def vinculoOk (v : Vinculo) : Prop :=
  v.tipo_vinculo = "EMPREGADO" ∧ v.data_inicio.isSome = true

/-- The loop invariant: every emitted record and the open record (when
any) satisfy `vinculoOk`. -/
def stateOk (st : ParseState) : Prop :=
  (∀ v ∈ st.vinculos, vinculoOk v) ∧
  (∀ v, st.vinculo_atual = some v → vinculoOk v)

/-- C2 witness: the invariant at a concrete parse. -/
def vinculoC2 : Vinculo := buildVinculo "7 GAMMA ME 02/02/2021 Empregado"

/-- The character just before the current position, after skipping the
prefix `a`. -/
def lastOr (prev : Option Char) : List Char → Option Char
  | [] => prev
  | c :: rest => lastOr (some c) rest

/-- The line contains a whole-word `DD/MM/AAAA` date. -/
def hasFullDateP (s : String) : Prop :=
  ∃ a b, s.data = a ++ b ∧ dataShape (b.take 10) = true ∧
    noWordOpt (lastOr none a) = true ∧ noWordOpt (b.drop 10).head? = true

/-- The line contains the whole-word token `Empregado`,
case-insensitively. -/
def hasEmpregadoTokenP (s : String) : Prop :=
  ∃ a b, s.data = a ++ b ∧ ((b.take 9).map lowerAscii) = "empregado".data ∧
    noWordOpt (lastOr none a) = true ∧ noWordOpt (b.drop 9).head? = true

/-- The line begins (after optional whitespace) with a 1–4 digit token
followed by whitespace. -/
def startsWithShortNumP (s : String) : Prop :=
  ∃ w ds c rest, s.data = w ++ ds ++ c :: rest ∧
    (∀ x ∈ w, isSpaceChar x = true) ∧ (∀ x ∈ ds, x.isDigit = true) ∧
    1 ≤ ds.length ∧ ds.length ≤ 4 ∧ isSpaceChar c = true

def extract_nit_and_codigo_and_empresaE (line : String) (idx_inicio_data : Int) :
    Except String (Option Nat × Option String × Option String × Option String) :=
  let raw := pyStrip line
  let mseq := searchSeqInicio raw
  let pre0 := pyStrip (String.mk (pyTakeI raw.data idx_inicio_data))
  let pre1 := match mseq with
    | some p => pyStrip (String.mk (pre0.data.drop p.2))
    | none => pre0
  let nitM := searchFirst matchNitValAt pre1
  let nit := nitM.map (fun r => r.2.2)
  let pre2 := match nitM with
    | some (st, len, _) => removeSpan pre1 st (st + len)
    | none => pre1
  let cnpjM := searchFirst matchCnpjAt pre2
  let codPre := match cnpjM with
    | some (st, len, tok) => (some tok, removeSpan pre2 st (st + len))
    | none =>
      match searchFirst matchCodigoAltAt pre2 with
      | some (st, len, tok) => (some tok, removeSpan pre2 st (st + len))
      | none => (none, pre2)
  let nome := if pyStrip codPre.2 ≠ "" then some (pyStrip codPre.2) else none
  match mseq with
  | none => .ok (none, nit, codPre.1, nome)
  | some p =>
    match py_int p.1 with
    | some n => .ok (some n, nit, codPre.1, nome)
    | none => .error "ValueError"

def buildVinculoE (ln : String) : Except String Vinculo :=
  let datas := extract_datas_from_line ln
  match extract_nit_and_codigo_and_empresaE ln datas.2.2.1 with
  | .error e => .error e
  | .ok quad =>
    let trip := extract_matricula_and_indicadores ln datas.2.2.2
    .ok { sequencial := quad.1
          nit_vinculo := quad.2.1
          nome_empresa := quad.2.2.2
          codigo_emp := quad.2.2.1
          origem_vinculo := none
          tipo_vinculo := "EMPREGADO"
          data_inicio := datas.1
          data_fim := datas.2.1
          ultima_remuneracao := trip.2.2
          matricula := trip.1
          indicadores := trip.2.1
          remuneracoes := [] }

def stepLineE (st : ParseState) (linha : String) : Except String ParseState :=
  let ln := pyStrip (pyRstripNl linha)
  if ln == "" then .ok st
  else if is_likely_vinculo_line ln then
    match buildVinculoE ln with
    | .error e => .error e
    | .ok nv =>
      let vs := match st.vinculo_atual with
        | some v => st.vinculos ++ [closeVinculo v st.bloco_linhas]
        | none => st.vinculos
      .ok { vinculo_atual := some nv, bloco_linhas := [], vinculos := vs }
  else
    .ok (match st.vinculo_atual with
      | some v =>
        if v.tipo_vinculo == "EMPREGADO" then
          let bloco := st.bloco_linhas ++ [ln]
          if is_noise_line_for_remun ln then
            { st with bloco_linhas := bloco }
          else
            match searchRemun ln with
            | some (comp, tok) =>
              { vinculo_atual := some { v with
                  remuneracoes := v.remuneracoes ++ [⟨comp, to_float_ptbr tok⟩] }
                bloco_linhas := bloco
                vinculos := st.vinculos }
            | none => { st with bloco_linhas := bloco }
        else st
      | none => st)

def parse_cnisE (texto : String) : Except String Resultado := do
  let identificacao := identificacaoOf texto
  let linhas := pySplitNl texto
  let final ← linhas.foldlM stepLineE ⟨none, [], []⟩
  let vincs := match final.vinculo_atual with
    | some v => final.vinculos ++ [closeVinculo v final.bloco_linhas]
    | none => final.vinculos
  return ⟨identificacao, vincs⟩

/-- Modelled from the spec: the decimal digit characters used to format
a competency. -/
def digitChar : Nat → Char
  | 0 => '0'
  | 1 => '1'
  | 2 => '2'
  | 3 => '3'
  | 4 => '4'
  | 5 => '5'
  | 6 => '6'
  | 7 => '7'
  | 8 => '8'
  | _ => '9'

def charVal (c : Char) : Nat := c.toNat - 48

/-- Modelled from the spec: literal parse of a `MM/AAAA` competency
token into (month, year); no range validation ("literal extraction"). -/
def mesAnoOfComp (s : String) : Option (Nat × Nat) :=
  match s.data with
  | [a, b, sl, c, d, e, f] =>
    if a.isDigit && b.isDigit && sl == '/' && c.isDigit && d.isDigit &&
        e.isDigit && f.isDigit then
      some (charVal a * 10 + charVal b,
        charVal c * 1000 + charVal d * 100 + charVal e * 10 + charVal f)
    else none
  | _ => none

/-- Modelled from the spec: the month/year portion of a `DD/MM/AAAA`
date. -/
def mesAnoOfData (s : String) : Option (Nat × Nat) :=
  match s.data with
  | [d1, d2, s1, m1, m2, s2, y1, y2, y3, y4] =>
    if d1.isDigit && d2.isDigit && s1 == '/' && m1.isDigit && m2.isDigit &&
        s2 == '/' && y1.isDigit && y2.isDigit && y3.isDigit && y4.isDigit then
      some (charVal m1 * 10 + charVal m2,
        charVal y1 * 1000 + charVal y2 * 100 + charVal y3 * 10 + charVal y4)
    else none
  | _ => none

/-- Modelled from the spec: explicit wrap-around month increment
(month 12 rolls to January of the next year). -/
def proximaCompetencia (p : Nat × Nat) : Nat × Nat :=
  if p.1 ≥ 12 then (1, p.2 + 1) else (p.1 + 1, p.2)

/-- Modelled from the spec: the sequence of `n` competencies starting
at `p`, advancing one calendar month at a time. -/
def geraCompetencias : Nat → (Nat × Nat) → List (Nat × Nat)
  | 0, _ => []
  | n + 1, p => p :: geraCompetencias n (proximaCompetencia p)

/-- Linear month index of a (month, year) pair. -/
def linIdx (p : Nat × Nat) : Nat := p.2 * 12 + p.1

/-- Modelled from the spec: how many competencies span `sIni..sFim`
inclusive; zero when the start is after the effective end (degenerate
case, §4.2). -/
def countComp (sIni sFim : Nat × Nat) : Nat := linIdx sFim + 1 - linIdx sIni

/-- Modelled from the spec: zero-padded `MM/AAAA` rendering of a
competency. -/
def fmtComp (p : Nat × Nat) : String :=
  String.mk [digitChar (p.1 / 10), digitChar (p.1 % 10), '/',
    digitChar (p.2 / 1000), digitChar (p.2 / 100 % 10),
    digitChar (p.2 / 10 % 10), digitChar (p.2 % 10)]

/-- Modelled from the spec: the effective end — `end_date`'s month/year
portion when resolvable, else `last_paid_competency`, else none. -/
def effectiveEnd (v : Vinculo) : Option (Nat × Nat) :=
  match v.data_fim.bind mesAnoOfData with
  | some p => some p
  | none => v.ultima_remuneracao.bind mesAnoOfComp

def observedComps (v : Vinculo) : List String :=
  v.remuneracoes.map (fun r => r.competencia)

structure VinculoGaps where
  base : Vinculo
  expected_competencies : List String
  missing_competencies : List String
deriving DecidableEq

/-- Modelled from the spec: the gap calculator — `expected_competencies`
spans the start's month/year to the effective end inclusive, and
`missing_competencies` keeps the expected entries absent from the
observed remuneration competencies; both stay empty unless both
endpoints resolve. -/
def gapCalc (v : Vinculo) : VinculoGaps :=
  match v.data_inicio.bind mesAnoOfData, effectiveEnd v with
  | some pIni, some pFim =>
    let exp := (geraCompetencias (countComp pIni pFim) pIni).map fmtComp
    let miss := exp.filter (fun c => !((observedComps v).contains c))
    ⟨v, exp, miss⟩
  | _, _ => ⟨v, [], []⟩

/-- Modelled from the spec: the per-record post-processing pass over
`parse_cnis`'s records. -/
def parse_cnis_com_gaps (texto : String) : List VinculoGaps :=
  (parse_cnis texto).vinculos.map gapCalc

/-- One calendar-month step, stated arithmetically: either the month
increments within the year, or December rolls to January of the next
year. -/
def calendarStep (p q : Nat × Nat) : Prop :=
  (p.1 < 12 ∧ q.1 = p.1 + 1 ∧ q.2 = p.2) ∨ (p.1 = 12 ∧ q.1 = 1 ∧ q.2 = p.2 + 1)

def validMes (p : Nat × Nat) : Prop := 1 ≤ p.1 ∧ p.1 ≤ 12

def iterProx : Nat → (Nat × Nat) → (Nat × Nat)
  | 0, p => p
  | i + 1, p => iterProx i (proximaCompetencia p)

def gC1 : VinculoGaps := gapCalc
  { sequencial := some 1, nit_vinculo := none, nome_empresa := some "X",
    codigo_emp := none, origem_vinculo := none, tipo_vinculo := "EMPREGADO",
    data_inicio := some "01/01/2020", data_fim := none,
    ultima_remuneracao := some "03/2020", matricula := none, indicadores := [],
    remuneracoes := [{ competencia := "01/2020", valor := some (mkRat 100 1) },
                     { competencia := "03/2020", valor := some (mkRat 50 1) }] }

/-- C7: the document consisting of the single line
`1  12.345.678/0001-99  ACME LTDA  01/01/2010  31/12/2012  Empregado`
parses to exactly one record, with the CNPJ as employer code, the
residue `ACME LTDA` as employer name, the first full date as start
date and the second as end date. -/
theorem c7_single_trigger_line :
    (parse_cnis "1  12.345.678/0001-99  ACME LTDA  01/01/2010  31/12/2012  Empregado").vinculos =
      [{ sequencial := some 1, nit_vinculo := none, nome_empresa := some "ACME LTDA",
         codigo_emp := some "12.345.678/0001-99", origem_vinculo := none,
         tipo_vinculo := "EMPREGADO", data_inicio := some "01/01/2010",
         data_fim := some "31/12/2012", ultima_remuneracao := none, matricula := none,
         indicadores := [], remuneracoes := [] }] := by
  decide

/-- C8: amounts are read in the Brazilian format (dot thousands
separator, comma decimal separator) and negative amounts are kept: a
remuneration line with amount token `-150,00` produces an entry with
value `-150`, not a dropped line. -/
theorem c8_negative_amount_kept :
    to_float_ptbr "1.234,56" = some (mkRat 123456 100) ∧
    to_float_ptbr "-150,00" = some (mkRat (-150) 1) ∧
    (parse_cnis "1 ACME 01/01/2020 Empregado\n01/2020 -150,00").vinculos.map
        (fun v => v.remuneracoes) =
      [[{ competencia := "01/2020", valor := some (mkRat (-150) 1) }]] ∧
    mkRat (-150) 1 = -(150 : ℚ) ∧ mkRat 123456 100 = (1234.56 : ℚ) := by
  refine ⟨by decide, by decide, by decide, by norm_num [Rat.mkRat_eq_div], by
    rw [Rat.mkRat_eq_div]; norm_num⟩

/-- C10: a single line contributes at most one remuneration entry to
the open record: one loop step either extends the open record's
remuneration list by at most one entry, or (on a trigger) installs a
fresh record with an empty list. -/
theorem c10_at_most_one_entry_per_line :
    ∀ (st : ParseState) (linha : String),
      (∃ app, openRemun (stepLine st linha) = openRemun st ++ app ∧ app.length ≤ 1) ∨
      openRemun (stepLine st linha) = [] := by
  intro st linha
  unfold stepLine
  by_cases hblank : (pyStrip (pyRstripNl linha) == "") = true
  · simp only [hblank, if_true]
    exact Or.inl ⟨[], by simp, by simp⟩
  · simp only [hblank, if_false]
    by_cases htrig : is_likely_vinculo_line (pyStrip (pyRstripNl linha)) = true
    · simp only [htrig, if_true]
      exact Or.inr (by simp [openRemun, buildVinculo])
    · simp only [eq_false_of_ne_true htrig, if_false]
      match hv : st.vinculo_atual with
      | none => exact Or.inl ⟨[], by simp [openRemun, hv], by simp⟩
      | some v =>
        by_cases htipo : (v.tipo_vinculo == "EMPREGADO") = true
        · simp only [htipo, if_true]
          by_cases hnoise : is_noise_line_for_remun (pyStrip (pyRstripNl linha)) = true
          · simp only [hnoise, if_true]
            exact Or.inl ⟨[], by simp [openRemun, hv], by simp⟩
          · simp only [eq_false_of_ne_true hnoise, if_false]
            match hr : searchRemun (pyStrip (pyRstripNl linha)) with
            | some (comp, tok) =>
              exact Or.inl ⟨[⟨comp, to_float_ptbr tok⟩], by simp [openRemun, hv], by simp⟩
            | none => exact Or.inl ⟨[], by simp [openRemun, hv], by simp⟩
        · simp only [eq_false_of_ne_true htipo, if_false]
          exact Or.inl ⟨[], by simp [openRemun, hv], by simp⟩

/-- C4 counterexample: the line `emitido 01/2020 100,00` carries a
genuine competency+amount match and is not a trigger, yet inside an
open record's block the noise filter drops it: no remuneration entry
is appended. -/
theorem c4_counterexample_noise_drops_match :
    searchRemun "emitido 01/2020 100,00" = some ("01/2020", "100,00") ∧
    is_likely_vinculo_line "emitido 01/2020 100,00" = false ∧
    is_noise_line_for_remun "emitido 01/2020 100,00" = true ∧
    (parse_cnis "1 ACME 01/01/2019 Empregado\nemitido 01/2020 100,00").vinculos.map
        (fun v => v.remuneracoes) = [[]] := by
  refine ⟨by decide, by decide, by decide, by decide⟩

/-- C4 (amended): inside an open record's block, a noise line
(containing "emitido", "página"/"pagina", or a header row) is skipped
without remuneration scanning — its matches are never appended — while
on a non-noise, non-trigger line the first competency+amount match
appends exactly one entry. -/
theorem c4_amended_noise_skips_remuneration
    (st : ParseState) (linha : String) (v : Vinculo)
    (hv : st.vinculo_atual = some v)
    (htipo : v.tipo_vinculo = "EMPREGADO")
    (hblank : pyStrip (pyRstripNl linha) ≠ "")
    (htrig : is_likely_vinculo_line (pyStrip (pyRstripNl linha)) = false) :
    (is_noise_line_for_remun (pyStrip (pyRstripNl linha)) = true →
      (stepLine st linha).vinculo_atual = some v) ∧
    (is_noise_line_for_remun (pyStrip (pyRstripNl linha)) = false →
      ∀ comp tok, searchRemun (pyStrip (pyRstripNl linha)) = some (comp, tok) →
        (stepLine st linha).vinculo_atual =
          some { v with remuneracoes :=
                  v.remuneracoes ++ [⟨comp, to_float_ptbr tok⟩] }) := by
  have hblank' : (pyStrip (pyRstripNl linha) == "") = false := by
    simpa using hblank
  have htipo' : (v.tipo_vinculo == "EMPREGADO") = true := by
    simpa using htipo
  constructor
  · intro hnoise
    unfold stepLine
    simp only [hblank', htrig, hv, htipo', hnoise, Bool.false_eq_true, if_false,
      if_true]
  · intro hnoise comp tok hr
    unfold stepLine
    simp only [hblank', htrig, hv, htipo', hnoise, hr, Bool.false_eq_true, if_false,
      if_true]

/-- C4 witness: the amended statement at a concrete open record — the
noise line leaves the record untouched, the clean line appends its one
match. -/
theorem c4_amended_witness :
    (stepLine ⟨some vinculoC4, [], []⟩ "emitido 01/2020 100,00").vinculo_atual =
        some vinculoC4 ∧
    (stepLine ⟨some vinculoC4, [], []⟩ "01/2020 100,00").vinculo_atual =
      some { vinculoC4 with remuneracoes :=
              vinculoC4.remuneracoes ++ [⟨"01/2020", to_float_ptbr "100,00"⟩] } :=
  ⟨(c4_amended_noise_skips_remuneration ⟨some vinculoC4, [], []⟩
      "emitido 01/2020 100,00" vinculoC4 rfl (by decide) (by decide) (by decide)).1
      (by decide),
   (c4_amended_noise_skips_remuneration ⟨some vinculoC4, [], []⟩
      "01/2020 100,00" vinculoC4 rfl (by decide) (by decide) (by decide)).2
      (by decide) "01/2020" "100,00" (by decide)⟩

/-- C5 counterexample: a document with a labelled name field yields no
name entry — the identification mapping stays empty, because the code
extracts only CPF and NIT. -/
theorem c5_counterexample_no_name_entry :
    (parse_cnis "Nome: JOAO DA SILVA").identificacao = [] ∧
    ¬ ∃ val, ("name", val) ∈ (parse_cnis "Nome: JOAO DA SILVA").identificacao := by
  have h : (parse_cnis "Nome: JOAO DA SILVA").identificacao = [] := by decide
  refine ⟨h, ?_⟩
  rintro ⟨val, hval⟩
  rw [h] at hval
  exact absurd hval (List.not_mem_nil _)

/-- C5 (amended): identification extraction runs once over the whole
text with tolerant labelled patterns for CPF and NIT only (first match
each); a name is never extracted, and a missing labelled field simply
leaves its key out of the mapping. -/
theorem c5_amended_identification_cpf_nit_only (texto : String) :
    (∀ key val, (key, val) ∈ (parse_cnis texto).identificacao →
      key = "cpf" ∨ key = "nit") ∧
    ((∃ val, ("cpf", val) ∈ (parse_cnis texto).identificacao) ↔
      (searchCpfId texto).isSome = true) ∧
    ((∃ val, ("nit", val) ∈ (parse_cnis texto).identificacao) ↔
      (searchNitId texto).isSome = true) := by
  have hid : (parse_cnis texto).identificacao = identificacaoOf texto := rfl
  rw [hid]
  unfold identificacaoOf
  rcases hc : searchCpfId texto with _ | g1 <;> rcases hn : searchNitId texto with _ | g2 <;>
    simp [Prod.ext_iff] <;> tauto

/-! ### The record invariant of the main loop (for C2 and C9) -/

theorem buildVinculo_ok (ln : String) (h : is_likely_vinculo_line ln = true) :
    vinculoOk (buildVinculo ln) := by
  refine ⟨rfl, ?_⟩
  cases hd : searchData ln with
  | none =>
    exfalso
    unfold is_likely_vinculo_line at h
    rw [hd] at h
    simp at h
  | some r =>
    unfold searchData searchFirst at hd
    unfold buildVinculo extract_datas_from_line
    rcases hscan : scanAll matchDataAt ln with _ | ⟨⟨st, len, tok⟩, tail⟩
    · rw [hscan] at hd; cases hd
    · simp [hscan]

theorem closeVinculo_ok (v : Vinculo) (bloco : List String) (h : vinculoOk v) :
    vinculoOk (closeVinculo v bloco) := by
  unfold closeVinculo
  split_ifs with h1
  · exact ⟨h.1, h.2⟩
  · exact h

theorem stepLine_ok (st : ParseState) (linha : String) (h : stateOk st) :
    stateOk (stepLine st linha) := by
  obtain ⟨cur, bloco, vs⟩ := st
  obtain ⟨hvs, hopen⟩ := h
  unfold stateOk
  rcases cur with _ | v0
  · unfold stepLine
    dsimp only
    by_cases hblank : (pyStrip (pyRstripNl linha) == "") = true
    · rw [if_pos hblank]
      exact ⟨hvs, fun v hv => by simp at hv⟩
    · rw [if_neg hblank]
      by_cases htrig : is_likely_vinculo_line (pyStrip (pyRstripNl linha)) = true
      · rw [if_pos htrig]
        refine ⟨hvs, fun v hv => ?_⟩
        simp only [Option.some.injEq] at hv
        rw [← hv]
        exact buildVinculo_ok _ htrig
      · rw [if_neg htrig]
        exact ⟨hvs, fun v hv => by simp at hv⟩
  · have hv0 : vinculoOk v0 := hopen v0 rfl
    unfold stepLine
    dsimp only
    by_cases hblank : (pyStrip (pyRstripNl linha) == "") = true
    · rw [if_pos hblank]
      refine ⟨hvs, fun v hv => ?_⟩
      simp only [Option.some.injEq] at hv
      rw [← hv]; exact hv0
    · rw [if_neg hblank]
      by_cases htrig : is_likely_vinculo_line (pyStrip (pyRstripNl linha)) = true
      · rw [if_pos htrig]
        refine ⟨?_, ?_⟩
        · intro v hv
          rcases List.mem_append.mp hv with hm | hm
          · exact hvs v hm
          · rw [List.mem_singleton.mp hm]
            exact closeVinculo_ok v0 bloco hv0
        · intro v hv
          simp only [Option.some.injEq] at hv
          rw [← hv]
          exact buildVinculo_ok _ htrig
      · rw [if_neg htrig]
        by_cases htipo : (v0.tipo_vinculo == "EMPREGADO") = true
        · rw [if_pos htipo]
          by_cases hnoise : is_noise_line_for_remun (pyStrip (pyRstripNl linha)) = true
          · rw [if_pos hnoise]
            refine ⟨hvs, fun v hv => ?_⟩
            simp only [Option.some.injEq] at hv
            rw [← hv]; exact hv0
          · rw [if_neg hnoise]
            rcases hr : searchRemun (pyStrip (pyRstripNl linha)) with _ | ⟨comp, tok⟩
            · simp only [hr]
              refine ⟨hvs, fun v hv => ?_⟩
              simp only [Option.some.injEq] at hv
              rw [← hv]; exact hv0
            · simp only [hr]
              refine ⟨hvs, fun v hv => ?_⟩
              simp only [Option.some.injEq] at hv
              rw [← hv]
              exact ⟨hv0.1, hv0.2⟩
        · rw [if_neg htipo]
          refine ⟨hvs, fun v hv => ?_⟩
          simp only [Option.some.injEq] at hv
          rw [← hv]; exact hv0

theorem foldl_stepLine_ok (linhas : List String) (st : ParseState)
    (h : stateOk st) : stateOk (linhas.foldl stepLine st) := by
  induction linhas generalizing st with
  | nil => exact h
  | cons ln rest ih => exact ih _ (stepLine_ok st ln h)

/-- Every record `parse_cnis` emits satisfies the invariant. -/
theorem parse_cnis_vinculoOk (texto : String) (v : Vinculo)
    (hv : v ∈ (parse_cnis texto).vinculos) : vinculoOk v := by
  have hfold : stateOk ((pySplitNl texto).foldl stepLine ⟨none, [], []⟩) :=
    foldl_stepLine_ok _ _ ⟨fun _ h => absurd h (List.not_mem_nil _), fun _ h => by cases h⟩
  set final := (pySplitNl texto).foldl stepLine ⟨none, [], []⟩ with hfinal
  have hv' : v ∈ (match final.vinculo_atual with
      | some v0 => final.vinculos ++ [closeVinculo v0 final.bloco_linhas]
      | none => final.vinculos) := hv
  rcases hcur : final.vinculo_atual with _ | v0
  · rw [hcur] at hv'
    exact hfold.1 v hv'
  · rw [hcur] at hv'
    rcases List.mem_append.mp hv' with hmem | hmem
    · exact hfold.1 v hmem
    · rw [List.mem_singleton.mp hmem]
      exact closeVinculo_ok v0 final.bloco_linhas (hfold.2 v0 hcur)

/-- C2: every emitted record has relationship type EMPREGADO and at
least one non-null identifying attribute (in fact always a start
date); a record with none of these never reaches the output. -/
theorem c2_no_phantom_records (texto : String) (v : Vinculo)
    (hv : v ∈ (parse_cnis texto).vinculos) :
    v.tipo_vinculo = "EMPREGADO" ∧
    (v.data_inicio.isSome = true ∨ v.sequencial.isSome = true ∨
     v.codigo_emp.isSome = true ∨ v.nome_empresa.isSome = true ∨
     v.nit_vinculo.isSome = true) := by
  have h := parse_cnis_vinculoOk texto v hv
  exact ⟨h.1, Or.inl h.2⟩

theorem c2_witness :
    vinculoC2 ∈ (parse_cnis "7 GAMMA ME 02/02/2021 Empregado").vinculos ∧
    vinculoC2.tipo_vinculo = "EMPREGADO" ∧
    (vinculoC2.data_inicio.isSome = true ∨ vinculoC2.sequencial.isSome = true ∨
     vinculoC2.codigo_emp.isSome = true ∨ vinculoC2.nome_empresa.isSome = true ∨
     vinculoC2.nit_vinculo.isSome = true) :=
  ⟨by decide,
   c2_no_phantom_records "7 GAMMA ME 02/02/2021 Empregado" vinculoC2 (by decide)⟩

/-- C9: every emitted record carries a start date, because the trigger
test demands a full date on the line and the first such date becomes
`data_inicio`. -/
theorem c9_start_date_always_present (texto : String) (v : Vinculo)
    (hv : v ∈ (parse_cnis texto).vinculos) : v.data_inicio.isSome = true :=
  (parse_cnis_vinculoOk texto v hv).2

/-- C9 witness: the start-date invariant at a concrete parse. -/
theorem c9_witness :
    (buildVinculo "12 BETA SA 05/03/2015 Empregado").data_inicio.isSome = true :=
  c9_start_date_always_present "12 BETA SA 05/03/2015 Empregado"
    (buildVinculo "12 BETA SA 05/03/2015 Empregado") (by decide)

/-! ### Search correctness (for C3): a pattern is found somewhere in a
line exactly when the line splits around a match -/

theorem scanAllFuel_ne_nil_iff {β : Type}
    (f : Option Char → List Char → Option (Nat × β))
    (hnil : ∀ p, f p [] = none) :
    ∀ (cs : List Char) (fuel : Nat) (prev : Option Char) (pos : Nat),
      cs.length ≤ fuel →
      (scanAllFuel f fuel prev cs pos ≠ [] ↔
        ∃ a b, cs = a ++ b ∧ (f (lastOr prev a) b).isSome = true) := by
  intro cs
  induction cs with
  | nil =>
    intro fuel prev pos _
    constructor
    · intro hne
      exfalso
      cases fuel <;> simp [scanAllFuel] at hne
    · rintro ⟨a, b, heq, hsome⟩
      exfalso
      obtain ⟨ha, hb⟩ := List.append_eq_nil.mp heq.symm
      rw [ha, hb] at hsome
      rw [hnil (lastOr prev [])] at hsome
      cases hsome
  | cons c rest ih =>
    intro fuel prev pos hlen
    cases fuel with
    | zero => exact absurd hlen (by simp)
    | succ m =>
      have hm : rest.length ≤ m := by
        simpa using hlen
      constructor
      · intro hne
        rcases hf : f prev (c :: rest) with _ | r
        · have hstep : scanAllFuel f (m + 1) prev (c :: rest) pos =
              scanAllFuel f m (some c) rest (pos + 1) := by
            simp [scanAllFuel, hf]
          rw [hstep] at hne
          obtain ⟨a, b, heq, hsome⟩ := (ih m (some c) (pos + 1) hm).mp hne
          exact ⟨c :: a, b, by rw [heq, List.cons_append], hsome⟩
        · refine ⟨[], c :: rest, rfl, ?_⟩
          show (f prev (c :: rest)).isSome = true
          rw [hf]
          rfl
      · rintro ⟨a, b, heq, hsome⟩
        rcases hf : f prev (c :: rest) with _ | r
        · have hstep : scanAllFuel f (m + 1) prev (c :: rest) pos =
              scanAllFuel f m (some c) rest (pos + 1) := by
            simp [scanAllFuel, hf]
          rw [hstep]
          cases a with
          | nil =>
            exfalso
            rw [List.nil_append] at heq
            have hsome' : (f prev (c :: rest)).isSome = true := by
              rw [← heq] at hsome
              exact hsome
            rw [hf] at hsome'
            cases hsome'
          | cons a0 a1 =>
            rw [List.cons_append] at heq
            obtain ⟨hc, hrest⟩ := List.cons.injEq .. ▸ heq
            apply (ih m (some c) (pos + 1) hm).mpr
            refine ⟨a1, b, hrest, ?_⟩
            rw [← hc] at hsome
            exact hsome
        · simp [scanAllFuel, hf]

theorem head_isSome_iff_ne_nil {α : Type} (l : List (Nat × Nat × α)) :
    l.head?.isSome = true ↔ l ≠ [] := by
  cases l <;> simp

/-- `searchFirst` finds a match exactly when the character list splits
around a position where the matcher fires. -/
theorem searchFirst_isSome_iff {β : Type}
    (f : Option Char → List Char → Option (Nat × β))
    (hnil : ∀ p, f p [] = none) (s : String) :
    (searchFirst f s).isSome = true ↔
      ∃ a b, s.data = a ++ b ∧ (f (lastOr none a) b).isSome = true := by
  rw [searchFirst, scanAll, head_isSome_iff_ne_nil]
  exact scanAllFuel_ne_nil_iff f hnil s.data s.data.length none 0 le_rfl

/-! ### Declarative forms of the trigger conditions -/

theorem matchDataAt_isSome (p : Option Char) (b : List Char) :
    (matchDataAt p b).isSome = true ↔
      dataShape (b.take 10) = true ∧ noWordOpt p = true ∧
      noWordOpt (b.drop 10).head? = true := by
  unfold matchDataAt
  rcases hsh : dataShape (b.take 10) <;> rcases hp : noWordOpt p <;>
    rcases hh : noWordOpt (b.drop 10).head? <;> simp [hsh, hp, hh]

theorem matchEmpregadoAt_isSome (p : Option Char) (b : List Char) :
    (matchEmpregadoAt p b).isSome = true ↔
      ((b.take 9).map lowerAscii) = "empregado".data ∧ noWordOpt p = true ∧
      noWordOpt (b.drop 9).head? = true := by
  unfold matchEmpregadoAt
  rcases hm : ((b.take 9).map lowerAscii == "empregado".data) <;>
    rcases hp : noWordOpt p <;> rcases hh : noWordOpt (b.drop 9).head? <;>
      simp only [hm, hp, hh, Bool.and_true, Bool.and_false, Bool.true_and,
        Bool.false_and, if_true, if_false, Bool.false_eq_true, if_neg, reduceIte,
        Option.isSome_some, Option.isSome_none] <;>
    simp_all [beq_iff_eq, beq_eq_false_iff_ne]

theorem searchData_isSome_iff (s : String) :
    (searchData s).isSome = true ↔ hasFullDateP s := by
  rw [searchData, searchFirst_isSome_iff matchDataAt (fun p => rfl)]
  unfold hasFullDateP
  constructor
  · rintro ⟨a, b, heq, hsome⟩
    exact ⟨a, b, heq, (matchDataAt_isSome _ _).mp hsome⟩
  · rintro ⟨a, b, heq, h1, h2, h3⟩
    exact ⟨a, b, heq, (matchDataAt_isSome _ _).mpr ⟨h1, h2, h3⟩⟩

theorem searchEmpregado_isSome_iff (s : String) :
    (searchEmpregado s).isSome = true ↔ hasEmpregadoTokenP s := by
  rw [searchEmpregado, searchFirst_isSome_iff matchEmpregadoAt (fun p => rfl)]
  unfold hasEmpregadoTokenP
  constructor
  · rintro ⟨a, b, heq, hsome⟩
    exact ⟨a, b, heq, (matchEmpregadoAt_isSome _ _).mp hsome⟩
  · rintro ⟨a, b, heq, h1, h2, h3⟩
    exact ⟨a, b, heq, (matchEmpregadoAt_isSome _ _).mpr ⟨h1, h2, h3⟩⟩

theorem space_not_digit (c : Char) (h : isSpaceChar c = true) : c.isDigit = false := by
  unfold isSpaceChar at h
  simp only [Bool.or_eq_true, beq_iff_eq] at h
  rcases h with ((h | h) | h) | h <;> subst h <;> decide

theorem digit_not_space (c : Char) (h : c.isDigit = true) : isSpaceChar c = false := by
  cases hs : isSpaceChar c
  · rfl
  · rw [space_not_digit c hs] at h
    cases h

theorem takeWhile_append_all {p : Char → Bool} (w : List Char)
    (hw : ∀ x ∈ w, p x = true) (l : List Char) :
    (w ++ l).takeWhile p = w ++ l.takeWhile p := by
  induction w with
  | nil => simp
  | cons x w ih =>
    have hx : p x = true := hw x (List.mem_cons_self x w)
    simp only [List.cons_append, List.takeWhile_cons, hx, if_true]
    rw [ih (fun y hy => hw y (List.mem_cons_of_mem x hy))]

theorem dropWhile_append_all {p : Char → Bool} (w : List Char)
    (hw : ∀ x ∈ w, p x = true) (l : List Char) :
    (w ++ l).dropWhile p = l.dropWhile p := by
  induction w with
  | nil => simp
  | cons x w ih =>
    have hx : p x = true := hw x (List.mem_cons_self x w)
    simp only [List.cons_append, List.dropWhile_cons, hx, if_true]
    exact ih (fun y hy => hw y (List.mem_cons_of_mem x hy))

theorem searchSeqInicio_isSome_iff (s : String) :
    (searchSeqInicio s).isSome = true ↔ startsWithShortNumP s := by
  constructor
  · intro h
    unfold searchSeqInicio at h
    simp only at h
    by_cases hn : (1 ≤ ((s.data.dropWhile isSpaceChar).takeWhile Char.isDigit).length &&
        ((s.data.dropWhile isSpaceChar).takeWhile Char.isDigit).length ≤ 4) = true
    · rw [if_pos hn] at h
      simp only [Bool.and_eq_true, decide_eq_true_eq] at hn
      obtain ⟨hn1, hn4⟩ := hn
      by_cases hws : 1 ≤
          (((s.data.dropWhile isSpaceChar).dropWhile Char.isDigit).takeWhile isSpaceChar).length
      · obtain ⟨c, rest, hcr⟩ : ∃ c rest,
            (s.data.dropWhile isSpaceChar).dropWhile Char.isDigit = c :: rest := by
          cases hd : (s.data.dropWhile isSpaceChar).dropWhile Char.isDigit with
          | nil =>
            rw [hd] at hws
            simp at hws
          | cons c rest => exact ⟨c, rest, rfl⟩
        have hc : isSpaceChar c = true := by
          by_contra hcf
          rw [hcr] at hws
          simp only [List.takeWhile_cons] at hws
          rw [if_neg hcf] at hws
          simp at hws
        refine ⟨s.data.takeWhile isSpaceChar,
          (s.data.dropWhile isSpaceChar).takeWhile Char.isDigit, c, rest, ?_, ?_, ?_,
          hn1, hn4, hc⟩
        · have h2 : s.data.dropWhile isSpaceChar =
              (s.data.dropWhile isSpaceChar).takeWhile Char.isDigit ++ (c :: rest) := by
            rw [← hcr]
            exact (List.takeWhile_append_dropWhile Char.isDigit
              (s.data.dropWhile isSpaceChar)).symm
          rw [List.append_assoc, ← h2]
          exact (List.takeWhile_append_dropWhile isSpaceChar s.data).symm
        · exact fun x hx => List.mem_takeWhile_imp hx
        · exact fun x hx => List.mem_takeWhile_imp hx
      · rw [if_neg hws] at h
        cases h
    · rw [if_neg hn] at h
      cases h
  · rintro ⟨w, ds, c, rest, heq, hw, hds, h1, h4, hc⟩
    rw [List.append_assoc] at heq
    obtain ⟨d, ds1, hdcons⟩ : ∃ d ds1, ds = d :: ds1 := by
      cases hd : ds with
      | nil => rw [hd] at h1; simp at h1
      | cons d ds1 => exact ⟨d, ds1, rfl⟩
    have hddig : d.isDigit = true := hds d (by rw [hdcons]; exact List.mem_cons_self d ds1)
    have hAfterW : s.data.dropWhile isSpaceChar = ds ++ c :: rest := by
      rw [heq, dropWhile_append_all w hw]
      rw [hdcons]
      simp only [List.cons_append, List.dropWhile_cons]
      rw [digit_not_space d hddig]
      simp [← hdcons]
    have hTake : (s.data.dropWhile isSpaceChar).takeWhile Char.isDigit = ds := by
      rw [hAfterW, takeWhile_append_all ds hds]
      simp only [List.takeWhile_cons]
      rw [space_not_digit c hc]
      simp
    have hDropD : (s.data.dropWhile isSpaceChar).dropWhile Char.isDigit = c :: rest := by
      rw [hAfterW, dropWhile_append_all ds hds]
      simp only [List.dropWhile_cons]
      rw [space_not_digit c hc]
      simp
    unfold searchSeqInicio
    simp only
    rw [hTake, hDropD]
    rw [if_pos]
    swap
    · simp [h1, h4]
    rw [if_pos]
    · rfl
    · simp only [List.takeWhile_cons, hc, if_true]
      simp

/-- C3 (amended): a line is a record-start trigger if and only if it
begins (after optional whitespace) with a 1–4 digit token followed by
whitespace, contains the whole-word token `Empregado`
(case-insensitively), contains a full `DD/MM/AAAA` date, and does not
contain both `"Indicador"` and `"Descrição"`.  There is no
header-phrase alternative: a known header phrase alone never makes a
line a trigger. -/
theorem c3_amended_trigger_rule (s : String) :
    is_likely_vinculo_line s = true ↔
      (startsWithShortNumP s ∧ hasEmpregadoTokenP s ∧ hasFullDateP s ∧
       ¬(pyIn "Indicador" s = true ∧ pyIn "Descrição" s = true)) := by
  rw [← searchSeqInicio_isSome_iff, ← searchEmpregado_isSome_iff,
    ← searchData_isSome_iff]
  unfold is_likely_vinculo_line
  rcases h1 : searchSeqInicio s with _ | r1 <;>
    rcases h2 : searchEmpregado s with _ | r2 <;>
      rcases h3 : searchData s with _ | r3 <;>
        rcases h4 : pyIn "Indicador" s <;> rcases h5 : pyIn "Descrição" s <;>
          simp [h1, h2, h3, h4, h5]

/-- C3 counterexample: the line
`Origem do Vínculo 01/01/2010 Empregado` satisfies every condition of
the claimed trigger rule through its header-phrase alternative
(it contains `Empregado`, a full date, and the known header phrase
`Origem do Vínculo`, and no `Indicador`/`Descrição` pair), yet the
code does not treat it as a trigger. -/
theorem c3_counterexample_header_phrase_not_trigger :
    (hasEmpregadoTokenP "Origem do Vínculo 01/01/2010 Empregado" ∧
     hasFullDateP "Origem do Vínculo 01/01/2010 Empregado" ∧
     (startsWithShortNumP "Origem do Vínculo 01/01/2010 Empregado" ∨
      pyIn "Origem do Vínculo" "Origem do Vínculo 01/01/2010 Empregado" = true ∨
      pyIn "Código Emp." "Origem do Vínculo 01/01/2010 Empregado" = true) ∧
     ¬(pyIn "Indicador" "Origem do Vínculo 01/01/2010 Empregado" = true ∧
       pyIn "Descrição" "Origem do Vínculo 01/01/2010 Empregado" = true)) ∧
    is_likely_vinculo_line "Origem do Vínculo 01/01/2010 Empregado" = false := by
  refine ⟨⟨?_, ?_, ?_, ?_⟩, ?_⟩
  · exact ⟨"Origem do Vínculo 01/01/2010 ".data, "Empregado".data,
      by decide, by decide, by decide, by decide⟩
  · exact ⟨"Origem do Vínculo ".data, "01/01/2010 Empregado".data,
      by decide, by decide, by decide, by decide⟩
  · exact Or.inr (Or.inl (by decide))
  · intro hcon
    exact absurd hcon.1 (by decide)
  · decide

/-! ### Exception-aware model (for C6)

Python exceptions are modelled with `Except`.  The only operation in
`parse_cnis` that can raise outside a `try` is the `int()` conversion
of the sequential group (`_to_float_ptbr` catches its own
`ValueError` and returns `None`, which the total model already
reflects).  The E-variants thread a potential `ValueError` through the
loop; C6 proves it never fires. -/

/-- The sequential group is always 1–4 digits, so `int()` succeeds. -/
theorem py_int_seq_group (s : String) (p : String × Nat)
    (h : searchSeqInicio s = some p) :
    py_int p.1 = some (natOfDigits p.1.data) := by
  unfold searchSeqInicio at h
  simp only at h
  split_ifs at h with h1 h2
  · injection h with h'
    have hp1 : p.1 = String.mk ((s.data.dropWhile isSpaceChar).takeWhile Char.isDigit) := by
      rw [← h']
    simp only [Bool.and_eq_true, decide_eq_true_eq] at h1
    have hne : p.1.data ≠ [] := by
      rw [hp1]
      show ((s.data.dropWhile isSpaceChar).takeWhile Char.isDigit) ≠ []
      intro hcon
      rw [hcon] at h1
      simp at h1
    have hall : p.1.data.all Char.isDigit = true := by
      rw [hp1]
      show ((s.data.dropWhile isSpaceChar).takeWhile Char.isDigit).all Char.isDigit = true
      simp only [List.all_eq_true]
      exact fun x hx => List.mem_takeWhile_imp hx
    unfold py_int
    rw [if_pos ⟨hne, hall⟩]

theorem extractE_ok (line : String) (idx : Int) :
    extract_nit_and_codigo_and_empresaE line idx =
      Except.ok (extract_nit_and_codigo_and_empresa line idx) := by
  unfold extract_nit_and_codigo_and_empresaE extract_nit_and_codigo_and_empresa
  dsimp only
  rcases hm : searchSeqInicio (pyStrip line) with _ | p
  · rfl
  · dsimp only
    rw [py_int_seq_group (pyStrip line) p hm]
    rfl

theorem buildVinculoE_ok (ln : String) :
    buildVinculoE ln = Except.ok (buildVinculo ln) := by
  unfold buildVinculoE buildVinculo
  dsimp only
  rw [extractE_ok]

theorem stepLineE_ok (st : ParseState) (linha : String) :
    stepLineE st linha = Except.ok (stepLine st linha) := by
  unfold stepLineE stepLine
  by_cases hblank : (pyStrip (pyRstripNl linha) == "") = true
  · rw [if_pos hblank, if_pos hblank]
  · rw [if_neg hblank, if_neg hblank]
    by_cases htrig : is_likely_vinculo_line (pyStrip (pyRstripNl linha)) = true
    · rw [if_pos htrig, if_pos htrig, buildVinculoE_ok]
    · rw [if_neg htrig, if_neg htrig]

theorem foldlM_stepLineE_ok (linhas : List String) (st : ParseState) :
    linhas.foldlM stepLineE st = Except.ok (linhas.foldl stepLine st) := by
  induction linhas generalizing st with
  | nil => rfl
  | cons l rest ih =>
    rw [List.foldlM_cons, stepLineE_ok, List.foldl_cons]
    exact ih (stepLine st l)

/-- C6: parsing is total and never lets an exception escape — the
exception-threaded model always returns `ok` with the total model's
result — and a malformed amount token ("1,2,3") is stored as an
absent value while processing continues to the following lines. -/
theorem c6_total_no_exception :
    (∀ texto : String, parse_cnisE texto = Except.ok (parse_cnis texto)) ∧
    (parse_cnis "1 ACME 01/01/2020 Empregado\n02/2020 1,2,3\n03/2020 50,00").vinculos.map
        (fun v => v.remuneracoes) =
      [[{ competencia := "02/2020", valor := none },
        { competencia := "03/2020", valor := some (mkRat 50 1) }]] := by
  constructor
  · intro texto
    unfold parse_cnisE parse_cnis
    dsimp only
    rw [foldlM_stepLineE_ok]
    rfl
  · decide

/-! ### Competency gap calculator (for C1)

The specification's §4.2 describes a per-record post-pass computing
`expected_competencies` and `missing_competencies`.  No variant of that
calculator is present under `src/` (the repository's most complete
parser there stops at extraction), so the calculator below is modelled
from the spec's words and composed with `parse_cnis`. -/

theorem gera_length (n : Nat) : ∀ p, (geraCompetencias n p).length = n := by
  induction n with
  | zero => intro p; rfl
  | succ n ih =>
    intro p
    simp only [geraCompetencias, List.length_cons, ih]

theorem prox_valid (p : Nat × Nat) (h : validMes p) :
    validMes (proximaCompetencia p) := by
  obtain ⟨h1, h2⟩ := h
  unfold proximaCompetencia validMes
  split_ifs with hc
  · exact ⟨le_refl 1, by omega⟩
  · constructor <;> simp <;> omega

theorem lin_prox (p : Nat × Nat) (h : p.1 ≤ 12) :
    linIdx (proximaCompetencia p) = linIdx p + 1 := by
  unfold proximaCompetencia linIdx
  split_ifs with hc
  · simp only
    omega
  · simp only
    omega

theorem calendarStep_prox (p : Nat × Nat) (h : validMes p) :
    calendarStep p (proximaCompetencia p) := by
  obtain ⟨h1, h2⟩ := h
  unfold proximaCompetencia calendarStep
  split_ifs with hc
  · right
    exact ⟨by omega, rfl, rfl⟩
  · left
    exact ⟨by omega, rfl, rfl⟩

theorem iter_valid_lin (i : Nat) : ∀ p, validMes p →
    validMes (iterProx i p) ∧ linIdx (iterProx i p) = linIdx p + i := by
  induction i with
  | zero => intro p hp; exact ⟨hp, rfl⟩
  | succ i ih =>
    intro p hp
    have hstep := ih (proximaCompetencia p) (prox_valid p hp)
    refine ⟨hstep.1, ?_⟩
    show linIdx (iterProx i (proximaCompetencia p)) = linIdx p + (i + 1)
    rw [hstep.2, lin_prox p hp.2]
    omega

theorem lin_canonic (p q : Nat × Nat) (hp : validMes p) (hq : validMes q)
    (h : linIdx p = linIdx q) : p = q := by
  obtain ⟨p1, p2⟩ := p
  obtain ⟨q1, q2⟩ := q
  obtain ⟨hp1, hp2⟩ := hp
  obtain ⟨hq1, hq2⟩ := hq
  unfold linIdx at h
  simp only at h hp1 hp2 hq1 hq2
  have : p1 = q1 ∧ p2 = q2 := by omega
  rw [this.1, this.2]

theorem digitChar_isDigit (k : Nat) (h : k ≤ 9) : (digitChar k).isDigit = true := by
  interval_cases k <;> decide

theorem charVal_digitChar (k : Nat) (h : k ≤ 9) : charVal (digitChar k) = k := by
  interval_cases k <;> decide

theorem fmtComp_roundtrip (p : Nat × Nat) (hmv : validMes p) (hy : p.2 ≤ 9999) :
    mesAnoOfComp (fmtComp p) = some p := by
  obtain ⟨m, y⟩ := p
  obtain ⟨hml, hmr⟩ := hmv
  simp only at hml hmr hy
  have h1 : m / 10 ≤ 9 := by omega
  have h2 : m % 10 ≤ 9 := by omega
  have h3 : y / 1000 ≤ 9 := by omega
  have h4 : y / 100 % 10 ≤ 9 := by omega
  have h5 : y / 10 % 10 ≤ 9 := by omega
  have h6 : y % 10 ≤ 9 := by omega
  unfold fmtComp mesAnoOfComp
  simp only
  rw [if_pos]
  · simp only [Option.some.injEq, Prod.mk.injEq]
    rw [charVal_digitChar _ h1, charVal_digitChar _ h2, charVal_digitChar _ h3,
      charVal_digitChar _ h4, charVal_digitChar _ h5, charVal_digitChar _ h6]
    constructor <;> omega
  · rw [digitChar_isDigit _ h1, digitChar_isDigit _ h2, digitChar_isDigit _ h3,
      digitChar_isDigit _ h4, digitChar_isDigit _ h5, digitChar_isDigit _ h6]
    decide

theorem gera_getLast (n : Nat) : ∀ p,
    (geraCompetencias (n + 1) p).getLast? = some (iterProx n p) := by
  induction n with
  | zero => intro p; rfl
  | succ n ih =>
    intro p
    show (p :: geraCompetencias (n + 1) (proximaCompetencia p)).getLast? = _
    rw [List.getLast?_cons, ih (proximaCompetencia p)]
    rfl

theorem gera_getD (n : Nat) : ∀ p i, i < n →
    (geraCompetencias n p).getD i (0, 0) = iterProx i p := by
  induction n with
  | zero => intro p i hi; cases hi
  | succ n ih =>
    intro p i hi
    cases i with
    | zero => rfl
    | succ i =>
      show (geraCompetencias n (proximaCompetencia p)).getD i (0, 0) = _
      exact ih (proximaCompetencia p) i (by omega)

theorem getD_map_fmt (l : List (Nat × Nat)) : ∀ i, i < l.length →
    (l.map fmtComp).getD i "" = fmtComp (l.getD i (0, 0)) := by
  induction l with
  | nil => intro i hi; cases hi
  | cons x l ih =>
    intro i hi
    cases i with
    | zero => rfl
    | succ i => exact ih i (by simpa using hi)

theorem iterProx_succ (i : Nat) : ∀ p,
    iterProx (i + 1) p = proximaCompetencia (iterProx i p) := by
  induction i with
  | zero => intro p; rfl
  | succ i ih => intro p; exact ih (proximaCompetencia p)

theorem gapCalc_base (v : Vinculo) : (gapCalc v).base = v := by
  unfold gapCalc
  rcases v.data_inicio.bind mesAnoOfData with _ | p <;>
    rcases effectiveEnd v with _ | q <;> rfl

/-- C1: for every record of the parse result whose start month/year and
effective end resolve (to calendar months, years up to 9999), the
post-pass carries `expected_competencies` running from the start's
month/year up to and including the effective end, advancing one
calendar month per element with December rolling over to January, and
`missing_competencies` is the ordered subsequence of the expected
entries absent from the remuneration competencies. -/
theorem c1_gap_analysis (texto : String) (g : VinculoGaps)
    (hg : g ∈ parse_cnis_com_gaps texto)
    (ms ys me ye : Nat)
    (hini : g.base.data_inicio.bind mesAnoOfData = some (ms, ys))
    (hfim : effectiveEnd g.base = some (me, ye))
    (hms : 1 ≤ ms ∧ ms ≤ 12) (hme : 1 ≤ me ∧ me ≤ 12) (hye : ye ≤ 9999) :
    g.expected_competencies.length = countComp (ms, ys) (me, ye) ∧
    (linIdx (ms, ys) ≤ linIdx (me, ye) →
      g.expected_competencies.head? = some (fmtComp (ms, ys)) ∧
      g.expected_competencies.getLast? = some (fmtComp (me, ye))) ∧
    (linIdx (me, ye) < linIdx (ms, ys) → g.expected_competencies = []) ∧
    (∀ i, i + 1 < g.expected_competencies.length →
      ∃ p q, mesAnoOfComp (g.expected_competencies.getD i "") = some p ∧
        mesAnoOfComp (g.expected_competencies.getD (i + 1) "") = some q ∧
        calendarStep p q) ∧
    g.missing_competencies.Sublist g.expected_competencies ∧
    (∀ c, c ∈ g.missing_competencies ↔
      (c ∈ g.expected_competencies ∧ c ∉ observedComps g.base)) := by
  obtain ⟨v, hv, hgv⟩ := List.mem_map.mp hg
  have hbase : g.base = v := by rw [← hgv, gapCalc_base]
  rw [hbase] at hini hfim
  have hexp : g.expected_competencies =
      (geraCompetencias (countComp (ms, ys) (me, ye)) (ms, ys)).map fmtComp := by
    rw [← hgv]
    unfold gapCalc
    rw [hini, hfim]
  have hmiss : g.missing_competencies =
      ((geraCompetencias (countComp (ms, ys) (me, ye)) (ms, ys)).map fmtComp).filter
        (fun c => !((observedComps v).contains c)) := by
    rw [← hgv]
    unfold gapCalc
    rw [hini, hfim]
  have hlen : g.expected_competencies.length = countComp (ms, ys) (me, ye) := by
    rw [hexp, List.length_map, gera_length]
  refine ⟨hlen, ?_, ?_, ?_, ?_, ?_⟩
  · intro hle
    obtain ⟨k, hk⟩ : ∃ k, countComp (ms, ys) (me, ye) = k + 1 := by
      unfold countComp at *
      exact ⟨linIdx (me, ye) - linIdx (ms, ys), by omega⟩
    constructor
    · rw [hexp, hk]
      rfl
    · rw [hexp, hk, List.getLast?_map, gera_getLast]
      have hiter := iter_valid_lin k (ms, ys) hms
      have hlink : linIdx (iterProx k (ms, ys)) = linIdx (me, ye) := by
        rw [hiter.2]
        unfold countComp at hk
        omega
      rw [lin_canonic (iterProx k (ms, ys)) (me, ye) hiter.1 hme hlink]
      rfl
  · intro hlt
    have hz : countComp (ms, ys) (me, ye) = 0 := by
      unfold countComp
      omega
    rw [hexp, hz]
    rfl
  · intro i hi
    rw [hlen] at hi
    have hglen : (geraCompetencias (countComp (ms, ys) (me, ye)) (ms, ys)).length =
        countComp (ms, ys) (me, ye) := gera_length _ _
    have hi' : i < countComp (ms, ys) (me, ye) := by omega
    have hi1 : i + 1 < countComp (ms, ys) (me, ye) := hi
    have hvi := iter_valid_lin i (ms, ys) hms
    have hvi1 := iter_valid_lin (i + 1) (ms, ys) hms
    have hyi : (iterProx i (ms, ys)).2 ≤ 9999 := by
      have hl := hvi.2
      obtain ⟨hml, hmr⟩ := hvi.1
      have e1 : linIdx (iterProx i (ms, ys)) =
          (iterProx i (ms, ys)).2 * 12 + (iterProx i (ms, ys)).1 := rfl
      have e2 : linIdx (ms, ys) = ys * 12 + ms := rfl
      have e3 : linIdx (me, ye) = ye * 12 + me := rfl
      have hcount : i < linIdx (me, ye) + 1 - linIdx (ms, ys) := hi'
      omega
    have hyi1 : (iterProx (i + 1) (ms, ys)).2 ≤ 9999 := by
      have hl := hvi1.2
      obtain ⟨hml, hmr⟩ := hvi1.1
      have e1 : linIdx (iterProx (i + 1) (ms, ys)) =
          (iterProx (i + 1) (ms, ys)).2 * 12 + (iterProx (i + 1) (ms, ys)).1 := rfl
      have e2 : linIdx (ms, ys) = ys * 12 + ms := rfl
      have e3 : linIdx (me, ye) = ye * 12 + me := rfl
      have hcount : i + 1 < linIdx (me, ye) + 1 - linIdx (ms, ys) := hi1
      omega
    have hbound_i : i < (geraCompetencias (countComp (ms, ys) (me, ye)) (ms, ys)).length := by
      rw [hglen]
      omega
    have hbound_i1 : i + 1 <
        (geraCompetencias (countComp (ms, ys) (me, ye)) (ms, ys)).length := by
      rw [hglen]
      omega
    refine ⟨iterProx i (ms, ys), iterProx (i + 1) (ms, ys), ?_, ?_, ?_⟩
    · rw [hexp, getD_map_fmt _ i hbound_i, gera_getD _ _ i hi']
      exact fmtComp_roundtrip _ hvi.1 hyi
    · rw [hexp, getD_map_fmt _ (i + 1) hbound_i1, gera_getD _ _ (i + 1) hi1]
      exact fmtComp_roundtrip _ hvi1.1 hyi1
    · rw [iterProx_succ i (ms, ys)]
      exact calendarStep_prox _ hvi.1
  · rw [hexp, hmiss]
    exact List.filter_sublist _
  · intro c
    rw [hexp, hmiss, hbase]
    simp only [List.mem_filter, List.contains, List.elem_eq_mem, Bool.not_eq_true',
      decide_eq_false_iff_not]

/-- C1 witness: the gap analysis of the concrete document
`1 X 01/01/2020 Empregado` with remunerations for 01/2020 and 03/2020
(expected 01–03/2020, missing 02/2020). -/
theorem c1_witness :
    gC1.expected_competencies.length = countComp (1, 2020) (3, 2020) ∧
    (linIdx (1, 2020) ≤ linIdx (3, 2020) →
      gC1.expected_competencies.head? = some (fmtComp (1, 2020)) ∧
      gC1.expected_competencies.getLast? = some (fmtComp (3, 2020))) ∧
    (linIdx (3, 2020) < linIdx (1, 2020) → gC1.expected_competencies = []) ∧
    (∀ i, i + 1 < gC1.expected_competencies.length →
      ∃ p q, mesAnoOfComp (gC1.expected_competencies.getD i "") = some p ∧
        mesAnoOfComp (gC1.expected_competencies.getD (i + 1) "") = some q ∧
        calendarStep p q) ∧
    gC1.missing_competencies.Sublist gC1.expected_competencies ∧
    (∀ c, c ∈ gC1.missing_competencies ↔
      (c ∈ gC1.expected_competencies ∧ c ∉ observedComps gC1.base)) :=
  c1_gap_analysis "1 X 01/01/2020 Empregado\n01/2020 100,00\n03/2020 50,00" gC1
    (by decide) 1 2020 3 2020 (by decide) (by decide) (by decide) (by decide)
    (by decide)

end ApiCnis
